import Mathlib

/-!
# ZenVobsToObj: visual collection and mesh merge

A shallow embedding of `src/ZenToObj/ZenToObj.cpp` (functions `getItemVisual`,
`collectVobsWithVisuals` and `transformAndMerge`) together with theorems about it.

Conventions of the embedding:

* `std::string` is a Lean `String`; positions are positions in its character list and
  `std::string::npos` is `none`.
* `float` arithmetic is modelled exactly over the rationals.
* `uint32_t` indices are natural numbers; the cast `(uint32_t)(idx + offset)` is `% 2 ^ 32`.
* `std::vector` is `List`, `push_back` appends at the end.
* `targetScene.subMeshes[0]` on a scene without submeshes is undefined behaviour in C++; the
  embedding returns `none` there.
-/

namespace ZenToObj

/-! ## Strings -/

/-- Search of `std::string::find(pat)` started at position `pos` of the remaining text `s`. -/
def findFrom (pat : List Char) : List Char → Nat → Option Nat
  | [], pos => if pat = [] then some pos else none
  | c :: cs, pos => if pat.isPrefixOf (c :: cs) then some pos else findFrom pat cs (pos + 1)

/-- Position of the first occurrence, `std::string::find(pat)`: `none` stands for `npos`. -/
def find (s pat : String) : Option Nat := findFrom pat.data s.data 0

/-- Helper of `find_last_of`: the last position of `c` in `s`, counting from `pos`. -/
def findLastFrom (c : Char) : List Char → Nat → Option Nat
  | [], _ => none
  | d :: ds, pos =>
    match findLastFrom c ds (pos + 1) with
    | some p => some p
    | none => if d = c then some pos else none

/-- Position of the last occurrence of a character, `std::string::find_last_of(c)`. -/
def find_last_of (s : String) (c : Char) : Option Nat := findLastFrom c s.data 0

/-- Substring `s.substr(0, n)`, where `n = npos` (`none`) keeps the whole string. -/
def substr0 (s : String) (n : Option Nat) : String :=
  match n with
  | none => s
  | some k => ⟨s.data.take k⟩

/-! ## Data model -/

/-- Three floats, `ZMath::float3` and `glm::vec3`. -/
structure float3 where
  x : ℚ
  y : ℚ
  z : ℚ
deriving DecidableEq

/-- Four floats, `glm::vec4`. -/
structure vec4 where
  x : ℚ
  y : ℚ
  z : ℚ
  w : ℚ
deriving DecidableEq

/-- The sixteen floats of `ZMath::Matrix` as `glm::mat4` reads them after the cast
`*(glm::mat4*)&vob.worldMatrix`: four consecutive columns of four floats each. -/
structure mat4 where
  c0 : vec4
  c1 : vec4
  c2 : vec4
  c3 : vec4
deriving DecidableEq

/-- Modelled from the spec: the declaration of `ZenLoad::WorldVertex` (zenload/zTypes.h) is
not part of the sources; a vertex is a 3D position plus other per-vertex attributes that the
program treats opaquely. -/
structure WorldVertex where
  Position : float3
  attributes : Nat
deriving DecidableEq

/-- Modelled from the spec: the declaration of `ZenLoad::PackedMesh::SubMesh` is not part of
the sources; a submesh is an index sequence with a material, the latter opaque here. -/
structure SubMesh where
  material : Nat
  indices : List Nat
deriving DecidableEq

/-- Modelled from the spec: the declaration of `ZenLoad::PackedMesh` is not part of the
sources; a packed mesh is a vertex sequence and a sequence of submeshes. -/
structure PackedMesh where
  vertices : List WorldVertex
  subMeshes : List SubMesh
deriving DecidableEq

/-- A vob of the scene hierarchy, `ZenLoad::zCVobData`, with the fields the program reads:
`objectClass`, `oCItem.instanceName`, `visual`, `worldMatrix` and `childVobs`. -/
inductive zCVobData where
  | mk (objectClass : String) (instanceName : String) (visual : String)
      (worldMatrix : mat4) (childVobs : List zCVobData) : zCVobData

namespace zCVobData

/-- Field `objectClass`. -/
def objectClass : zCVobData → String
  | mk oc _ _ _ _ => oc

/-- Field `oCItem.instanceName`. -/
def instanceName : zCVobData → String
  | mk _ n _ _ _ => n

/-- Field `visual`. -/
def visual : zCVobData → String
  | mk _ _ v _ _ => v

/-- Field `worldMatrix`. -/
def worldMatrix : zCVobData → mat4
  | mk _ _ _ m _ => m

/-- Field `childVobs`. -/
def childVobs : zCVobData → List zCVobData
  | mk _ _ _ _ cs => cs

end zCVobData

/-! ## Script collaborators -/

/-- Modelled from the spec: `Daedalus::GEngineClasses::C_Item` is declared outside the
sources; only its declared visual-asset field is read. -/
structure C_Item where
  visual : String
deriving DecidableEq

/-- Modelled from the spec: `Daedalus::DATFile` is declared outside the sources; the program
only asks it whether a symbol name exists. -/
structure DATFile where
  symbols : List String

/-- Modelled from the spec: the query `datFile.hasSymbolName(name)`, "does symbol X exist";
its code is outside the sources. -/
def DATFile.hasSymbolName (datFile : DATFile) (name : String) : Bool :=
  decide (name ∈ datFile.symbols)

/-- Modelled from the spec: `Daedalus::DaedalusVM` with its game state is declared outside the
sources; it creates an item-state record for an instance name (`script` gives the record the
instance's script produces) and keeps the records created so far. -/
structure DaedalusVM where
  script : String → C_Item
  items : List C_Item

/-- Modelled from the spec: the call `vm->getGameState().insertItem(instanceName)`, "get or
create item state for instance X"; a new record is stored and its handle is returned. -/
def DaedalusVM.insertItem (vm : DaedalusVM) (instanceName : String) : Nat × DaedalusVM :=
  (vm.items.length, { vm with items := vm.items ++ [vm.script instanceName] })

/-- Modelled from the spec: the call `vm->getGameState().getItem(hitem)`, the item state
behind a handle. -/
def DaedalusVM.getItem (vm : DaedalusVM) (hitem : Nat) : C_Item :=
  vm.items.getD hitem ⟨""⟩

/-! ## `getItemVisual` and `collectVobsWithVisuals` -/

/-- Function `getItemVisual` (lines 44-56): the visual of the item record created for a known
instance name, the empty string for an unknown one; the virtual machine is passed on. -/
def getItemVisual (instanceName : String) (datFile : DATFile) (vm : DaedalusVM) :
    String × DaedalusVM :=
  if datFile.hasSymbolName instanceName then
    let r := vm.insertItem instanceName
    ((r.2.getItem r.1).visual, r.2)
  else ("", vm)

/-- The test of line 73, `!vob.visual.empty() && vob.visual.find(".3DS") != npos`. -/
def isExportable (visual : String) : Bool :=
  !visual.isEmpty && (find visual ".3DS").isSome

/-- The test of line 68, `vob.objectClass.find("oCItem") != npos`. -/
def isItem (objectClass : String) : Bool :=
  (find objectClass "oCItem").isSome

mutual

/-- Function `collectVobsWithVisuals` (lines 62-81), the loop over `vobs`: the result is the
final `target` and the virtual machine after all item lookups. -/
def collectVobsWithVisuals (vobs : List zCVobData) (target : List zCVobData)
    (datFile : DATFile) (vm : DaedalusVM) : List zCVobData × DaedalusVM :=
  match vobs with
  | [] => (target, vm)
  | vob :: rest =>
    let r := collectVob vob target datFile vm
    collectVobsWithVisuals rest r.1 datFile r.2

/-- One iteration of the loop of `collectVobsWithVisuals` (lines 67-79). The value returned by
`getItemVisual` is dropped, as at line 70; the test of line 73 reads `vob.visual`. -/
def collectVob (vob : zCVobData) (target : List zCVobData)
    (datFile : DATFile) (vm : DaedalusVM) : List zCVobData × DaedalusVM :=
  match vob with
  | .mk objectClass instanceName visual worldMatrix childVobs =>
    let vm1 :=
      if isItem objectClass then (getItemVisual instanceName datFile vm).2
      else vm
    let target1 :=
      if isExportable visual then
        target ++ [.mk objectClass instanceName visual worldMatrix childVobs]
      else target
    collectVobsWithVisuals childVobs target1 datFile vm1

end

/-! ## `transformAndMerge` -/

/-- Modelled from the spec: `ZenLoad::zCProgMeshProto` (zenload/zCProgMeshProto.h) is declared
outside the sources; the raw-mesh decoder produces a structure exposing the submesh count
(`getNumSubmeshes()`) and the vertex and submesh data that `packMesh` writes into a fresh
`PackedMesh`. -/
structure zCProgMeshProto where
  numSubmeshes : Nat
  packed : PackedMesh

/-- The raw-mesh decoder `zCProgMeshProto rawMesh(filename, vdf)` for the archive index `vdf`
of the run: a function of the file name. -/
abbrev Decoder := String → zCProgMeshProto

/-- Constant `g_isExportedVerticesLimited` (line 41). -/
def g_isExportedVerticesLimited : Bool := false

/-- Constant `g_exportedVerticesLimit` (line 42). -/
def g_exportedVerticesLimit : Nat := 100000

/-- Product `worldMatrix * glm::vec4(...)` of a column-major matrix with a column vector. -/
def mulVec (m : mat4) (v : vec4) : vec4 :=
  { x := m.c0.x * v.x + m.c1.x * v.y + m.c2.x * v.z + m.c3.x * v.w
    y := m.c0.y * v.x + m.c1.y * v.y + m.c2.y * v.z + m.c3.y * v.w
    z := m.c0.z * v.x + m.c1.z * v.y + m.c2.z * v.z + m.c3.z * v.w
    w := m.c0.w * v.x + m.c1.w * v.y + m.c2.w * v.z + m.c3.w * v.w }

/-- Body of the vertex loop (lines 162-167): the position is transformed with `w = 1`, then
each of its three components is multiplied by `0.01`; the other attributes are kept. -/
def transformVertex (worldMatrix : mat4) (vertex : WorldVertex) : WorldVertex :=
  let vertexPos := vertex.Position
  let transformed := mulVec worldMatrix ⟨vertexPos.x, vertexPos.y, vertexPos.z, 1⟩
  { vertex with
    Position := ⟨transformed.x * (1 / 100), transformed.y * (1 / 100), transformed.z * (1 / 100)⟩ }

/-- Statement `targetScene.subMeshes[0].indices.push_back(i)`; `none` when the scene has no
submesh. -/
def pushIndex (targetScene : PackedMesh) (i : Nat) : Option PackedMesh :=
  match targetScene.subMeshes with
  | [] => none
  | sm :: rest =>
    some { targetScene with subMeshes := { sm with indices := sm.indices ++ [i] } :: rest }

/-- Inner index loop (lines 173-176) over the indices of one submesh. -/
def pushIndices (offset : Nat) : List Nat → PackedMesh → Option PackedMesh
  | [], targetScene => some targetScene
  | idx :: rest, targetScene =>
    match pushIndex targetScene ((idx + offset) % 2 ^ 32) with
    | none => none
    | some scene1 => pushIndices offset rest scene1

/-- Outer index loop (lines 171-177) over the submeshes of the mesh. -/
def pushSubMeshes (offset : Nat) : List SubMesh → PackedMesh → Option PackedMesh
  | [], targetScene => some targetScene
  | subMesh :: rest, targetScene =>
    match pushIndices offset subMesh.indices targetScene with
    | none => none
    | some scene1 => pushSubMeshes offset rest scene1

/-- Lines 153-182 of the loop body, for the mesh of the current visual: the new scene and
whether the loop is left by `break`. -/
def appendMesh (worldMatrix : mat4) (mesh : PackedMesh) (targetScene : PackedMesh) :
    Option (PackedMesh × Bool) :=
  if mesh.vertices.isEmpty then some (targetScene, false)
  else
    let offset := targetScene.vertices.length
    let scene1 : PackedMesh :=
      { targetScene with
        vertices := targetScene.vertices ++ mesh.vertices.map (transformVertex worldMatrix) }
    match pushSubMeshes offset mesh.subMeshes scene1 with
    | none => none
    | some scene2 =>
      some (scene2,
        g_isExportedVerticesLimited && decide (scene2.vertices.length > g_exportedVerticesLimit))

/-- File name of the raw mesh of a visual (line 134). -/
def mrmFilename (visual : String) : String :=
  substr0 visual (find_last_of visual '.') ++ ".MRM"

/-- State of the loop of `transformAndMerge`: the cache `meshes`, the scene, and the trace
`decoded` of the visuals for which a `zCProgMeshProto` was constructed (line 136), in order. -/
structure MergeState where
  meshes : List (String × PackedMesh)
  targetScene : PackedMesh
  decoded : List String

/-- One iteration of the loop of `transformAndMerge` (lines 128-182): the new state and
whether the loop is left by `break`. An entry of `std::map` is found with `List.lookup`;
`meshes[vob.visual] = mesh` is only reached for an absent key and puts the pair in front. -/
def mergeVob (decode : Decoder) (vob : zCVobData) (st : MergeState) :
    Option (MergeState × Bool) :=
  match st.meshes.lookup vob.visual with
  | none =>
    let filename := mrmFilename vob.visual
    let rawMesh := decode filename
    let st1 : MergeState := { st with decoded := st.decoded ++ [vob.visual] }
    if rawMesh.numSubmeshes = 0 then some (st1, false)
    else
      let mesh := rawMesh.packed
      let st2 : MergeState := { st1 with meshes := (vob.visual, mesh) :: st1.meshes }
      match appendMesh vob.worldMatrix mesh st2.targetScene with
      | none => none
      | some r => some ({ st2 with targetScene := r.1 }, r.2)
  | some mesh =>
    match appendMesh vob.worldMatrix mesh st.targetScene with
    | none => none
    | some r => some ({ st with targetScene := r.1 }, r.2)

/-- The loop of `transformAndMerge` (line 126) from a given state. -/
def mergeLoop (decode : Decoder) : List zCVobData → MergeState → Option MergeState
  | [], st => some st
  | vob :: rest, st =>
    match mergeVob decode vob st with
    | none => none
    | some (st1, true) => some st1
    | some (st1, false) => mergeLoop decode rest st1

/-- Function `transformAndMerge` (lines 120-184) with its final loop state: the cache starts
empty. -/
def transformAndMergeRun (decode : Decoder) (vobsWithVisuals : List zCVobData)
    (targetScene : PackedMesh) : Option MergeState :=
  mergeLoop decode vobsWithVisuals { meshes := [], targetScene := targetScene, decoded := [] }

/-- Function `transformAndMerge` (lines 120-184): the scene after the call. -/
def transformAndMerge (decode : Decoder) (vobsWithVisuals : List zCVobData)
    (targetScene : PackedMesh) : Option PackedMesh :=
  (transformAndMergeRun decode vobsWithVisuals targetScene).map MergeState.targetScene

/-- The scene that `main` passes to `transformAndMerge` (lines 248-249): no vertex and one
submesh without indices. -/
def emptyScene : PackedMesh := { vertices := [], subMeshes := [{ material := 0, indices := [] }] }

/-! ## Reference definitions for the statements -/

mutual

/-- Depth-first pre-order of a node: the node, then the pre-order of its children in the
given child order. -/
def preorder : zCVobData → List zCVobData
  | .mk objectClass instanceName visual worldMatrix childVobs =>
    .mk objectClass instanceName visual worldMatrix childVobs :: preorderForest childVobs

/-- Depth-first pre-order of a forest: the pre-orders of its trees, one after the other. -/
def preorderForest : List zCVobData → List zCVobData
  | [] => []
  | vob :: rest => preorder vob ++ preorderForest rest

end

/-- Filename extension of a visual in the sense of the specification: the text from the last
dot to the end, empty when there is no dot. -/
def fileExtension (visual : String) : String :=
  match find_last_of visual '.' with
  | none => ""
  | some k => ⟨visual.data.drop k⟩

/-- The test for a mobile object: the object-class tag contains `oCMob`. -/
def isMob (objectClass : String) : Bool :=
  (find objectClass "oCMob").isSome

/-- The variant of one loop iteration of `transformAndMerge` without a cache: the asset is
decoded and packed afresh. -/
def mergeVobNaive (decode : Decoder) (vob : zCVobData) (targetScene : PackedMesh) :
    Option (PackedMesh × Bool) :=
  let rawMesh := decode (mrmFilename vob.visual)
  if rawMesh.numSubmeshes = 0 then some (targetScene, false)
  else appendMesh vob.worldMatrix rawMesh.packed targetScene

/-- The variant of `transformAndMerge` without a cache. -/
def transformAndMergeNaive (decode : Decoder) : List zCVobData → PackedMesh → Option PackedMesh
  | [], targetScene => some targetScene
  | vob :: rest, targetScene =>
    match mergeVobNaive decode vob targetScene with
    | none => none
    | some (scene1, true) => some scene1
    | some (scene1, false) => transformAndMergeNaive decode rest scene1

/-- The cache agrees with the decoder: every entry belongs to an asset with at least one
submesh and holds its packed mesh. -/
def CacheOK (decode : Decoder) (meshes : List (String × PackedMesh)) : Prop :=
  ∀ v m, meshes.lookup v = some m →
    (decode (mrmFilename v)).numSubmeshes ≠ 0 ∧ m = (decode (mrmFilename v)).packed

/-- Every local index of every submesh of every asset is below the asset's vertex count. -/
def WellFormed (decode : Decoder) : Prop :=
  ∀ filename, ∀ sm ∈ (decode filename).packed.subMeshes, ∀ i ∈ sm.indices,
    i < (decode filename).packed.vertices.length

/-- Every index of every submesh of the scene is below the scene's vertex count. -/
def IndexBound (scene : PackedMesh) : Prop :=
  ∀ sm ∈ scene.subMeshes, ∀ i ∈ sm.indices, i < scene.vertices.length

/-- The submesh with further indices appended at the end. -/
def SubMesh.extend (sm : SubMesh) (idxs : List Nat) : SubMesh :=
  { sm with indices := sm.indices ++ idxs }

/-- The indices one merged mesh contributes to the scene: the indices of its submeshes in
submesh order, each stored as `(idx + offset)` truncated to 32 bits. -/
def shiftedIndices (offset : Nat) (mesh : PackedMesh) : List Nat :=
  (mesh.subMeshes.flatMap SubMesh.indices).map (fun idx => (idx + offset) % 2 ^ 32)

/-! ## Example inputs -/

/-- The identity matrix. -/
def identity : mat4 := ⟨⟨1, 0, 0, 0⟩, ⟨0, 1, 0, 0⟩, ⟨0, 0, 1, 0⟩, ⟨0, 0, 0, 1⟩⟩

/-- The translation by `(tx, ty, tz)` with identity rotation and scale, as `glm::translate`
builds it: the offsets are the first three floats of the fourth column. -/
def translation (tx ty tz : ℚ) : mat4 := ⟨⟨1, 0, 0, 0⟩, ⟨0, 1, 0, 0⟩, ⟨0, 0, 1, 0⟩, ⟨tx, ty, tz, 1⟩⟩

/-- A script database without symbols. -/
def noSymbols : DATFile := ⟨[]⟩

/-- A script database that knows the item instance `ITFO_APPLE`. -/
def appleSymbols : DATFile := ⟨["ITFO_APPLE"]⟩

/-- A virtual machine whose scripts give every item the visual `ITFO_APPLE.3DS`. -/
def appleVM : DaedalusVM := ⟨fun _ => ⟨"ITFO_APPLE.3DS"⟩, []⟩

/-- An item vob with a visual field of its own. -/
def itemWithVisual : zCVobData := .mk "oCItem:zCVob" "ITFO_APPLE" "APPLE.3DS" identity []

/-- An item vob with an empty visual field. -/
def itemWithoutVisual : zCVobData := .mk "oCItem:zCVob" "ITFO_APPLE" "" identity []

/-- A static vob whose visual has the extension `.ASC`. -/
def ascVob : zCVobData := .mk "zCVob" "" "X.3DS.ASC" identity []

/-- A static vob whose visual has the extension `.3DSX`. -/
def dsxVob : zCVobData := .mk "zCVob" "" "X.3DSX" identity []

/-- A static vob whose visual has a lower-case extension. -/
def lowerVob : zCVobData := .mk "zCVob" "" "Foo.3ds" identity []

/-- A mobile object with a `.3DS` visual. -/
def chestMob : zCVobData := .mk "oCMobContainer:oCMobInter:oCMOB:zCVob" "" "CHEST.3DS" identity []

/-- A static vob with a `.3DS` visual and the mobile object as its child. -/
def treeVob : zCVobData := .mk "zCVob" "" "TREE.3DS" identity [chestMob, lowerVob]

/-- A decoder that knows one asset, `A.MRM`: one vertex at `(1, 0, 0)` and one submesh with
the index `0`; every other file decodes to zero submeshes. -/
def oneVertexDecoder : Decoder := fun filename =>
  if filename = "A.MRM" then ⟨1, ⟨[⟨⟨1, 0, 0⟩, 7⟩], [⟨3, [0]⟩]⟩⟩ else ⟨0, ⟨[], []⟩⟩

/-- A decoder whose asset `A.MRM` has one vertex and one submesh with the index `2 ^ 32 - 1`. -/
def largeIndexDecoder : Decoder := fun filename =>
  if filename = "A.MRM" then ⟨1, ⟨[⟨⟨1, 0, 0⟩, 7⟩], [⟨3, [4294967295]⟩]⟩⟩ else ⟨0, ⟨[], []⟩⟩

/-- A decoder whose asset `E.MRM` has a submesh with indices and no vertex, next to the asset
`A.MRM` of `oneVertexDecoder`. -/
def noVertexDecoder : Decoder := fun filename =>
  if filename = "E.MRM" then ⟨1, ⟨[], [⟨3, [5, 6]⟩]⟩⟩ else oneVertexDecoder filename

/-- A candidate with the visual `A.3DS`, translated by `(0, 0, 100)`. -/
def aVob : zCVobData := .mk "zCVob" "" "A.3DS" (translation 0 0 100) []

/-- A candidate with the visual `W.3DS`, for which no raw mesh exists in the examples. -/
def wVob : zCVobData := .mk "zCVob" "" "W.3DS" identity []

/-- A candidate with the visual `E.3DS`. -/
def eVob : zCVobData := .mk "zCVob" "" "E.3DS" identity []

/-! ## Theorems: strings -/

theorem findFrom_isSome (pat s : List Char) (pos : Nat) :
    (findFrom pat s pos).isSome = true ↔ pat <:+: s := by
  induction s generalizing pos with
  | nil =>
    by_cases h : pat = []
    · simp [findFrom, h]
    · simp [findFrom, h]
  | cons c cs ih =>
    rw [findFrom, List.infix_cons_iff]
    by_cases h : pat.isPrefixOf (c :: cs) = true
    · simp [h, List.isPrefixOf_iff_prefix.mp h]
    · have h2 : ¬ pat <+: c :: cs := fun hp => h (List.isPrefixOf_iff_prefix.mpr hp)
      simp [h, h2, ih]

theorem isExportable_iff (visual : String) :
    isExportable visual = true ↔ ".3DS".data <:+: visual.data := by
  unfold isExportable find
  rw [Bool.and_eq_true, findFrom_isSome]
  constructor
  · exact fun h => h.2
  · intro h
    refine ⟨?_, h⟩
    have hne : visual ≠ "" := by
      rintro rfl
      obtain ⟨s, t, hst⟩ := h
      have := congrArg List.length hst
      simp at this
    have hemp : visual.isEmpty ≠ true := fun he => hne ((String.isEmpty_iff visual).mp he)
    simpa using hemp

/-! ## Theorems: the collector -/

mutual

theorem collectVobsWithVisuals_fst (vobs target : List zCVobData) (datFile : DATFile)
    (vm : DaedalusVM) :
    (collectVobsWithVisuals vobs target datFile vm).1 =
      target ++ (preorderForest vobs).filter (fun vob => isExportable vob.visual) := by
  match vobs with
  | [] => simp [collectVobsWithVisuals, preorderForest]
  | vob :: rest =>
    rw [collectVobsWithVisuals, preorderForest]
    rw [collectVobsWithVisuals_fst rest, collectVob_fst vob]
    simp [List.filter_append]

theorem collectVob_fst (vob : zCVobData) (target : List zCVobData) (datFile : DATFile)
    (vm : DaedalusVM) :
    (collectVob vob target datFile vm).1 =
      target ++ (preorder vob).filter (fun vob => isExportable vob.visual) := by
  match vob with
  | .mk objectClass instanceName visual worldMatrix childVobs =>
    rw [collectVob, preorder]
    rw [collectVobsWithVisuals_fst childVobs]
    by_cases h : isExportable visual = true
    · simp [h, List.filter_cons, zCVobData.visual]
    · simp [h, List.filter_cons, zCVobData.visual]

end

/-! ## Theorems: one merge step -/

theorem pushIndices_cons (offset : Nat) (idxs : List Nat) (vs : List WorldVertex)
    (sm : SubMesh) (rest : List SubMesh) :
    pushIndices offset idxs ⟨vs, sm :: rest⟩ =
      some ⟨vs, sm.extend (idxs.map (fun idx => (idx + offset) % 2 ^ 32)) :: rest⟩ := by
  induction idxs generalizing sm with
  | nil => simp [pushIndices, SubMesh.extend]
  | cons idx tl ih => simp [pushIndices, pushIndex, ih, SubMesh.extend]

theorem pushSubMeshes_cons (offset : Nat) (sms : List SubMesh) (vs : List WorldVertex)
    (sm : SubMesh) (rest : List SubMesh) :
    pushSubMeshes offset sms ⟨vs, sm :: rest⟩ =
      some ⟨vs, sm.extend ((sms.flatMap SubMesh.indices).map
        (fun idx => (idx + offset) % 2 ^ 32)) :: rest⟩ := by
  induction sms generalizing sm with
  | nil => simp [pushSubMeshes, SubMesh.extend]
  | cons s tl ih => simp [pushSubMeshes, pushIndices_cons, ih, SubMesh.extend]

theorem appendMesh_empty (worldMatrix : mat4) (mesh targetScene : PackedMesh)
    (h : mesh.vertices = []) :
    appendMesh worldMatrix mesh targetScene = some (targetScene, false) := by
  simp [appendMesh, h]

theorem appendMesh_cons (worldMatrix : mat4) (mesh : PackedMesh) (vs : List WorldVertex)
    (sm : SubMesh) (rest : List SubMesh) (h : mesh.vertices ≠ []) :
    appendMesh worldMatrix mesh ⟨vs, sm :: rest⟩ =
      some (⟨vs ++ mesh.vertices.map (transformVertex worldMatrix),
        sm.extend (shiftedIndices vs.length mesh) :: rest⟩, false) := by
  simp [appendMesh, h, pushSubMeshes_cons, shiftedIndices, g_isExportedVerticesLimited]

theorem appendMesh_flag (worldMatrix : mat4) (mesh targetScene : PackedMesh)
    (r : PackedMesh × Bool) (h : appendMesh worldMatrix mesh targetScene = some r) :
    r.2 = false := by
  unfold appendMesh at h
  split at h
  · cases h; rfl
  · dsimp only at h
    split at h
    · cases h
    · cases h; simp [g_isExportedVerticesLimited]

/-! ## Theorems: the cache -/

theorem mergeVob_naive (decode : Decoder) (vob : zCVobData) (st : MergeState)
    (hc : CacheOK decode st.meshes) :
    (mergeVob decode vob st).map (fun r => (r.1.targetScene, r.2)) =
      mergeVobNaive decode vob st.targetScene := by
  unfold mergeVob mergeVobNaive
  cases hl : st.meshes.lookup vob.visual with
  | none =>
    by_cases hn : (decode (mrmFilename vob.visual)).numSubmeshes = 0
    · simp [hn]
    · simp only [hn, if_false]
      cases appendMesh vob.worldMatrix (decode (mrmFilename vob.visual)).packed st.targetScene
        <;> simp
  | some m =>
    obtain ⟨hn, rfl⟩ := hc _ _ hl
    simp only [hn, if_false]
    cases appendMesh vob.worldMatrix (decode (mrmFilename vob.visual)).packed st.targetScene
      <;> simp

theorem mergeVob_cacheOK (decode : Decoder) (vob : zCVobData) (st : MergeState)
    (r : MergeState × Bool) (hc : CacheOK decode st.meshes)
    (h : mergeVob decode vob st = some r) : CacheOK decode r.1.meshes := by
  unfold mergeVob at h
  cases hl : st.meshes.lookup vob.visual with
  | none =>
    rw [hl] at h
    by_cases hn : (decode (mrmFilename vob.visual)).numSubmeshes = 0
    · simp only [hn, if_true] at h
      cases h
      exact hc
    · simp only [hn, if_false] at h
      cases ha : appendMesh vob.worldMatrix (decode (mrmFilename vob.visual)).packed
          st.targetScene with
      | none => simp [ha] at h
      | some q =>
        simp only [ha] at h
        cases h
        intro v m hv
        simp only [List.lookup_cons] at hv
        by_cases hb : (v == vob.visual) = true
        · have hveq : v = vob.visual := by simpa using hb
          simp only [hb] at hv
          cases hv
          subst hveq
          exact ⟨hn, rfl⟩
        · have hb2 : (v == vob.visual) = false := by simpa using hb
          simp only [hb2] at hv
          exact hc v m hv
  | some m =>
    rw [hl] at h
    cases ha : appendMesh vob.worldMatrix m st.targetScene with
    | none => simp [ha] at h
    | some q =>
      simp only [ha] at h
      cases h
      exact hc

theorem mergeVob_flag (decode : Decoder) (vob : zCVobData) (st : MergeState)
    (r : MergeState × Bool) (h : mergeVob decode vob st = some r) : r.2 = false := by
  unfold mergeVob at h
  cases hl : st.meshes.lookup vob.visual with
  | none =>
    rw [hl] at h
    by_cases hn : (decode (mrmFilename vob.visual)).numSubmeshes = 0
    · simp only [hn, if_true] at h
      cases h
      rfl
    · simp only [hn, if_false] at h
      cases ha : appendMesh vob.worldMatrix (decode (mrmFilename vob.visual)).packed
          st.targetScene with
      | none => simp [ha] at h
      | some q =>
        simp only [ha] at h
        cases h
        exact appendMesh_flag _ _ _ _ ha
  | some m =>
    rw [hl] at h
    cases ha : appendMesh vob.worldMatrix m st.targetScene with
    | none => simp [ha] at h
    | some q =>
      simp only [ha] at h
      cases h
      exact appendMesh_flag _ _ _ _ ha

theorem mergeLoop_naive (decode : Decoder) (vobs : List zCVobData) (st : MergeState)
    (hc : CacheOK decode st.meshes) :
    (mergeLoop decode vobs st).map MergeState.targetScene =
      transformAndMergeNaive decode vobs st.targetScene := by
  induction vobs generalizing st with
  | nil => simp [mergeLoop, transformAndMergeNaive]
  | cons vob rest ih =>
    have hstep := mergeVob_naive decode vob st hc
    rw [mergeLoop, transformAndMergeNaive]
    cases hm : mergeVob decode vob st with
    | none =>
      rw [hm] at hstep
      simp only [Option.map_none'] at hstep
      simp [← hstep]
    | some r =>
      obtain ⟨st1, b⟩ := r
      rw [hm] at hstep
      simp only [Option.map_some'] at hstep
      rw [← hstep]
      have hc1 := mergeVob_cacheOK decode vob st _ hc hm
      cases b with
      | true => simp
      | false => simpa using ih st1 hc1

theorem mergeLoop_cacheOK (decode : Decoder) (vobs : List zCVobData) (st st1 : MergeState)
    (hc : CacheOK decode st.meshes) (h : mergeLoop decode vobs st = some st1) :
    CacheOK decode st1.meshes := by
  induction vobs generalizing st with
  | nil =>
    simp only [mergeLoop, Option.some.injEq] at h
    subst h
    exact hc
  | cons vob rest ih =>
    rw [mergeLoop] at h
    cases hm : mergeVob decode vob st with
    | none => simp [hm] at h
    | some r =>
      obtain ⟨st2, b⟩ := r
      have hc2 := mergeVob_cacheOK decode vob st _ hc hm
      rw [hm] at h
      cases b with
      | true =>
        simp only [Option.some.injEq] at h
        subst h
        exact hc2
      | false => exact ih st2 hc2 h

theorem cacheOK_nil (decode : Decoder) : CacheOK decode [] := by
  intro v m h
  simp at h

/-! ## Theorems: the index bound -/

theorem appendMesh_indexBound (worldMatrix : mat4) (mesh targetScene : PackedMesh)
    (hmesh : ∀ sm ∈ mesh.subMeshes, ∀ i ∈ sm.indices, i < mesh.vertices.length)
    (hne : targetScene.subMeshes ≠ []) (hb : IndexBound targetScene) :
    ∃ r, appendMesh worldMatrix mesh targetScene = some (r, false) ∧
      r.subMeshes ≠ [] ∧ IndexBound r := by
  obtain ⟨vs, sms⟩ := targetScene
  cases sms with
  | nil => exact absurd rfl hne
  | cons sm rest =>
    by_cases hv : mesh.vertices = []
    · exact ⟨_, appendMesh_empty _ _ _ hv, hne, hb⟩
    · refine ⟨_, appendMesh_cons _ _ _ _ _ hv, by simp, ?_⟩
      intro s hs i hi
      simp only [List.length_append, List.length_map]
      simp only [List.mem_cons] at hs
      rcases hs with rfl | hs
      · simp only [SubMesh.extend, List.mem_append] at hi
        rcases hi with hi | hi
        · have := hb sm (by simp) i hi
          simp only at this
          omega
        · simp only [shiftedIndices, List.mem_map, List.mem_flatMap] at hi
          obtain ⟨j, ⟨s2, hs2, hj⟩, rfl⟩ := hi
          have hlt := hmesh s2 hs2 j hj
          have hmod : (j + vs.length) % 2 ^ 32 ≤ j + vs.length := Nat.mod_le _ _
          omega
      · have := hb s (by simp [hs]) i hi
        simp only at this
        omega

theorem naive_indexBound (decode : Decoder) (hwf : WellFormed decode) (vobs : List zCVobData)
    (targetScene : PackedMesh) (hne : targetScene.subMeshes ≠ [])
    (hb : IndexBound targetScene) :
    ∃ r, transformAndMergeNaive decode vobs targetScene = some r ∧
      r.subMeshes ≠ [] ∧ IndexBound r := by
  induction vobs generalizing targetScene with
  | nil => exact ⟨targetScene, rfl, hne, hb⟩
  | cons vob rest ih =>
    rw [transformAndMergeNaive]
    unfold mergeVobNaive
    by_cases hn : (decode (mrmFilename vob.visual)).numSubmeshes = 0
    · simp only [hn, if_true]
      exact ih targetScene hne hb
    · simp only [hn, if_false]
      obtain ⟨r, hr, hrne, hrb⟩ := appendMesh_indexBound vob.worldMatrix
        (decode (mrmFilename vob.visual)).packed targetScene (hwf _) hne hb
      rw [hr]
      exact ih r hrne hrb

/-! ## Theorems: instances of one asset -/

theorem extend_extend (sm : SubMesh) (a b : List Nat) :
    (sm.extend a).extend b = sm.extend (a ++ b) := by
  simp [SubMesh.extend]

theorem naive_instances (decode : Decoder) (v : String)
    (hsub : (decode (mrmFilename v)).numSubmeshes ≠ 0)
    (hV : (decode (mrmFilename v)).packed.vertices ≠ [])
    (cands : List zCVobData) (hv : ∀ c ∈ cands, c.visual = v)
    (vs : List WorldVertex) (sm : SubMesh) (rest : List SubMesh) :
    transformAndMergeNaive decode cands ⟨vs, sm :: rest⟩ =
      some ⟨vs ++ cands.flatMap (fun c =>
          (decode (mrmFilename v)).packed.vertices.map (transformVertex c.worldMatrix)),
        sm.extend ((List.range cands.length).flatMap (fun k =>
          shiftedIndices (vs.length + k * (decode (mrmFilename v)).packed.vertices.length)
            (decode (mrmFilename v)).packed)) :: rest⟩ := by
  induction cands generalizing vs sm with
  | nil => simp [transformAndMergeNaive, SubMesh.extend]
  | cons c tl ih =>
    have hc : c.visual = v := hv c (by simp)
    have htl : ∀ d ∈ tl, d.visual = v := fun d hd => hv d (by simp [hd])
    rw [transformAndMergeNaive]
    unfold mergeVobNaive
    simp only [hc, hsub, if_false]
    rw [appendMesh_cons _ _ _ _ _ hV]
    simp only []
    rw [ih htl, extend_extend]
    simp only [List.length_cons, List.range_succ_eq_map, List.flatMap_cons, List.flatMap_map,
      List.length_append, List.length_map, List.append_assoc, Nat.zero_mul, Nat.add_zero]
    congr 5
    apply List.flatMap_congr
    intro k _
    congr 1
    simp only [Nat.succ_eq_add_one]
    ring

/-! ## Theorems: the trace of decoder calls -/

theorem appendMesh_isSome (worldMatrix : mat4) (mesh targetScene : PackedMesh)
    (hne : targetScene.subMeshes ≠ []) :
    ∃ r, appendMesh worldMatrix mesh targetScene = some (r, false) ∧ r.subMeshes ≠ [] := by
  obtain ⟨vs, sms⟩ := targetScene
  cases sms with
  | nil => exact absurd rfl hne
  | cons sm rest =>
    by_cases hv : mesh.vertices = []
    · exact ⟨_, appendMesh_empty _ _ _ hv, hne⟩
    · exact ⟨_, appendMesh_cons _ _ _ _ _ hv, by simp⟩

theorem lookup_cons_ne (u v : String) (m : PackedMesh) (l : List (String × PackedMesh))
    (h : ¬ v = u) : List.lookup v ((u, m) :: l) = List.lookup v l := by
  have hb : (v == u) = false := by simpa using h
  rw [List.lookup_cons, hb]

theorem mergeLoop_decoded (decode : Decoder) (vobs : List zCVobData) (st : MergeState)
    (hne : st.targetScene.subMeshes ≠ []) :
    ∃ st1, mergeLoop decode vobs st = some st1 ∧ st1.targetScene.subMeshes ≠ [] ∧
      ∀ v, st1.decoded.count v = st.decoded.count v +
        (if (st.meshes.lookup v).isSome then 0
         else if (decode (mrmFilename v)).numSubmeshes = 0 then
           (vobs.map zCVobData.visual).count v
         else if v ∈ vobs.map zCVobData.visual then 1 else 0) := by
  induction vobs generalizing st with
  | nil => exact ⟨st, rfl, hne, by simp⟩
  | cons vob rest ih =>
    rw [mergeLoop]
    cases hl : st.meshes.lookup vob.visual with
    | none =>
      by_cases hn : (decode (mrmFilename vob.visual)).numSubmeshes = 0
      · have hm : mergeVob decode vob st =
            some ({ st with decoded := st.decoded ++ [vob.visual] }, false) := by
          unfold mergeVob
          simp [hl, hn]
        obtain ⟨st2, h2, hne2, hcount⟩ :=
          ih { st with decoded := st.decoded ++ [vob.visual] } hne
        refine ⟨st2, by rw [hm]; exact h2, hne2, ?_⟩
        intro v
        rw [hcount v]
        by_cases hvu : vob.visual = v
        · subst hvu
          simp [hl, hn, List.count_append]
          omega
        · have hvu2 : ¬ v = vob.visual := fun h => hvu h.symm
          simp [List.count_append, List.count_cons, hvu, hvu2]
      · obtain ⟨r, hr, hrne⟩ := appendMesh_isSome vob.worldMatrix
          (decode (mrmFilename vob.visual)).packed st.targetScene hne
        have hm : mergeVob decode vob st =
            some ({ meshes := (vob.visual, (decode (mrmFilename vob.visual)).packed) :: st.meshes,
                    targetScene := r,
                    decoded := st.decoded ++ [vob.visual] }, false) := by
          unfold mergeVob
          simp [hl, hn, hr]
        obtain ⟨st2, h2, hne2, hcount⟩ := ih
          { meshes := (vob.visual, (decode (mrmFilename vob.visual)).packed) :: st.meshes,
            targetScene := r,
            decoded := st.decoded ++ [vob.visual] } hrne
        refine ⟨st2, by rw [hm]; exact h2, hne2, ?_⟩
        intro v
        rw [hcount v]
        by_cases hvu : vob.visual = v
        · subst hvu
          simp [hl, hn, List.count_append, List.lookup_cons]
        · have hvu2 : ¬ v = vob.visual := fun h => hvu h.symm
          simp only [lookup_cons_ne _ _ _ _ hvu2]
          simp [List.count_append, List.count_cons, hvu, hvu2]
    | some m =>
      obtain ⟨r, hr, hrne⟩ := appendMesh_isSome vob.worldMatrix m st.targetScene hne
      have hm : mergeVob decode vob st = some ({ st with targetScene := r }, false) := by
        unfold mergeVob
        simp [hl, hr]
      obtain ⟨st2, h2, hne2, hcount⟩ := ih { st with targetScene := r } hrne
      refine ⟨st2, by rw [hm]; exact h2, hne2, ?_⟩
      intro v
      rw [hcount v]
      by_cases hvu : vob.visual = v
      · subst hvu
        simp [hl]
      · have hvu2 : ¬ v = vob.visual := fun h => hvu h.symm
        simp [List.count_cons, hvu, hvu2]

/-! ## Theorems: the collector claims -/

/-- C4, evaluated on the code: an item whose instance name is no script symbol resolves to the
empty visual and is collected all the same, because its own visual field holds `APPLE.3DS`;
an item whose script visual is `ITFO_APPLE.3DS` is not collected, because its own visual
field is empty. -/
theorem item_visual_ignored :
    (getItemVisual itemWithVisual.instanceName noSymbols appleVM).1 = "" ∧
    (collectVobsWithVisuals [itemWithVisual] [] noSymbols appleVM).1 = [itemWithVisual] ∧
    (getItemVisual itemWithoutVisual.instanceName appleSymbols appleVM).1 = "ITFO_APPLE.3DS" ∧
    isExportable "ITFO_APPLE.3DS" = true ∧
    (collectVobsWithVisuals [itemWithoutVisual] [] appleSymbols appleVM).1 = [] :=
  ⟨rfl, rfl, rfl, rfl, rfl⟩

/-- C5 as stated fails: the non-item vobs with the visuals `X.3DS.ASC` and `X.3DSX`, whose
filename extensions are `.ASC` and `.3DSX`, are collected. -/
theorem other_extension_collected :
    isItem ascVob.objectClass = false ∧ fileExtension ascVob.visual = ".ASC" ∧
    (collectVobsWithVisuals [ascVob] [] noSymbols appleVM).1 = [ascVob] ∧
    isItem dsxVob.objectClass = false ∧ fileExtension dsxVob.visual = ".3DSX" ∧
    (collectVobsWithVisuals [dsxVob] [] noSymbols appleVM).1 = [dsxVob] :=
  ⟨rfl, by decide, rfl, rfl, by decide, rfl⟩

/-- C5, amended: for every forest and every non-item node of it, the nodes that
`collectVobsWithVisuals` appends to the target contain that node if and only if its visual
is non-empty and contains the text `.3DS` somewhere. -/
theorem collected_iff_contains_3DS (vobs target : List zCVobData) (datFile : DATFile)
    (vm : DaedalusVM) (vob : zCVobData) (hin : vob ∈ preorderForest vobs)
    (_hitem : isItem vob.objectClass = false) :
    ∃ appended, (collectVobsWithVisuals vobs target datFile vm).1 = target ++ appended ∧
      (vob ∈ appended ↔ vob.visual.isEmpty = false ∧ ".3DS".data <:+: vob.visual.data) := by
  refine ⟨_, collectVobsWithVisuals_fst vobs target datFile vm, ?_⟩
  rw [List.mem_filter, isExportable_iff]
  constructor
  · intro h
    have he := (isExportable_iff vob.visual).mpr h.2
    simp only [isExportable, Bool.and_eq_true, Bool.not_eq_true'] at he
    exact ⟨he.1, h.2⟩
  · exact fun h => ⟨hin, h.2⟩

/-- Witness of C5, amended: the lower-case visual `Foo.3ds` of a non-item vob. -/
theorem collected_iff_contains_3DS_witness :
    ∃ appended, (collectVobsWithVisuals [treeVob] [] noSymbols appleVM).1 = [] ++ appended ∧
      (lowerVob ∈ appended ↔
        lowerVob.visual.isEmpty = false ∧ ".3DS".data <:+: lowerVob.visual.data) :=
  collected_iff_contains_3DS [treeVob] [] noSymbols appleVM lowerVob
    (by simp [treeVob, preorderForest, preorder, lowerVob, chestMob]) rfl

/-- C6: for every forest, `collectVobsWithVisuals` returns the target followed by the nodes of
the forest in depth-first pre-order that pass the test of line 73; the pre-order contains the
children of every node, accepted or not. -/
theorem collect_eq_filter_preorder (vobs target : List zCVobData) (datFile : DATFile)
    (vm : DaedalusVM) :
    (collectVobsWithVisuals vobs target datFile vm).1 =
      target ++ (preorderForest vobs).filter (fun vob => isExportable vob.visual) :=
  collectVobsWithVisuals_fst vobs target datFile vm

/-- C7 as stated fails: a mobile object with the visual `CHEST.3DS`, child of a static vob, is
appended to the target. -/
theorem chest_mob_appended :
    isMob chestMob.objectClass = true ∧
    (collectVobsWithVisuals [treeVob] [] noSymbols appleVM).1 = [treeVob, chestMob] :=
  ⟨rfl, rfl⟩

/-- C7, amended: for every forest and every node of it whose object-class tag contains
`oCMob`, the nodes that `collectVobsWithVisuals` appends contain that node if and only if its
visual passes the test of line 73, as for any other node. -/
theorem mob_collected_iff (vobs target : List zCVobData) (datFile : DATFile)
    (vm : DaedalusVM) (vob : zCVobData) (hin : vob ∈ preorderForest vobs)
    (_hmob : isMob vob.objectClass = true) :
    ∃ appended, (collectVobsWithVisuals vobs target datFile vm).1 = target ++ appended ∧
      (vob ∈ appended ↔ isExportable vob.visual = true) := by
  refine ⟨_, collectVobsWithVisuals_fst vobs target datFile vm, ?_⟩
  rw [List.mem_filter]
  exact ⟨fun h => h.2, fun h => ⟨hin, h⟩⟩

/-- Witness of C7, amended: the mobile object below the static vob. -/
theorem mob_collected_iff_witness :
    ∃ appended, (collectVobsWithVisuals [treeVob] [] noSymbols appleVM).1 = [] ++ appended ∧
      (chestMob ∈ appended ↔ isExportable chestMob.visual = true) :=
  mob_collected_iff [treeVob] [] noSymbols appleVM chestMob
    (by simp [treeVob, preorderForest, preorder, lowerVob, chestMob]) rfl

theorem length_flatMap_map (cands : List zCVobData) (l : List WorldVertex) :
    (cands.flatMap (fun c => l.map (transformVertex c.worldMatrix))).length =
      cands.length * l.length := by
  induction cands with
  | nil => simp
  | cons c tl ih =>
    simp only [List.flatMap_cons, List.length_append, List.length_map, ih, List.length_cons]
    ring

/-! ## Theorems: the merge claims -/

/-- C10: for every decoder (a function of the derived file name), every candidate list and
every initial scene, `transformAndMerge` yields exactly the scene of the variant without a
cache, and fails exactly when that variant fails. -/
theorem transformAndMerge_eq_naive (decode : Decoder) (vobsWithVisuals : List zCVobData)
    (targetScene : PackedMesh) :
    transformAndMerge decode vobsWithVisuals targetScene =
      transformAndMergeNaive decode vobsWithVisuals targetScene :=
  mergeLoop_naive decode vobsWithVisuals
    { meshes := [], targetScene := targetScene, decoded := [] } (cacheOK_nil decode)

/-- C1: for every candidate list and every decoder with well-formed assets, merging into the
empty scene with one submesh returns a scene in which every index of every submesh is below
the number of scene vertices. -/
theorem transformAndMerge_indexBound (decode : Decoder) (hwf : WellFormed decode)
    (vobsWithVisuals : List zCVobData) :
    ∃ r, transformAndMerge decode vobsWithVisuals emptyScene = some r ∧
      ∀ sm ∈ r.subMeshes, ∀ i ∈ sm.indices, i < r.vertices.length := by
  have hb : IndexBound emptyScene := by
    intro sm hsm i hi
    simp only [emptyScene, List.mem_singleton] at hsm
    subst hsm
    simp at hi
  obtain ⟨r, hr, _, hrb⟩ := naive_indexBound decode hwf vobsWithVisuals emptyScene
    (by simp [emptyScene]) hb
  refine ⟨r, ?_, hrb⟩
  unfold transformAndMerge transformAndMergeRun
  rw [mergeLoop_naive decode vobsWithVisuals _ (cacheOK_nil decode)]
  exact hr

/-- Witness of C1: two instances of the one-vertex asset. -/
theorem transformAndMerge_indexBound_witness :
    WellFormed oneVertexDecoder ∧
    ∃ r, transformAndMerge oneVertexDecoder [aVob, wVob, aVob] emptyScene = some r ∧
      ∀ sm ∈ r.subMeshes, ∀ i ∈ sm.indices, i < r.vertices.length :=
  have hwf : WellFormed oneVertexDecoder := by
    intro filename sm hsm i hi
    unfold oneVertexDecoder at hsm ⊢
    by_cases hf : filename = "A.MRM"
    · simp only [hf, if_true, List.mem_singleton] at hsm ⊢
      subst hsm
      simp only [List.mem_singleton] at hi
      subst hi
      decide
    · simp [hf] at hsm
  ⟨hwf, transformAndMerge_indexBound oneVertexDecoder hwf [aVob, wVob, aVob]⟩

/-- C2 as stated fails: two instances of an asset with one vertex and the single index
`2 ^ 32 - 1` satisfy the premises (`N = 2`, `V = 1`, `N * V < 2 ^ 32`), and the second copy of
the index is stored as `0`, not as `2 ^ 32 - 1 + 1 * 1`. -/
theorem instances_large_index :
    (largeIndexDecoder (mrmFilename aVob.visual)).numSubmeshes = 1 ∧
    (largeIndexDecoder (mrmFilename aVob.visual)).packed.vertices.length = 1 ∧
    (largeIndexDecoder (mrmFilename aVob.visual)).packed.subMeshes.flatMap SubMesh.indices =
      [4294967295] ∧
    2 * 1 < 2 ^ 32 ∧
    (transformAndMerge largeIndexDecoder [aVob, aVob] emptyScene).map
      (fun r => r.subMeshes.map SubMesh.indices) = some [[4294967295, 0]] ∧
    (transformAndMerge largeIndexDecoder [aVob, aVob] emptyScene).map
      (fun r => r.subMeshes.map SubMesh.indices) ≠
      some [(List.range 2).flatMap (fun k => [4294967295].map (fun i => i + k * 1))] := by
  decide

/-- C2, amended: for every list of `N` candidates sharing one visual name whose asset decodes
to at least one submesh, `V > 0` vertices and flattened index list `I`,
`transformAndMerge` on the empty one-submesh scene returns `N * V` vertices (the transformed
copies of the asset's vertices, candidate after candidate) and exactly one submesh, whose
index sequence is the concatenation for `k = 0 .. N - 1` of `I` with every index `i` stored as
`(i + k * V) % 2 ^ 32`; when `N * V < 2 ^ 32` and every index of `I` is below `V`, that is `I`
with `k * V` added to every index. -/
theorem transformAndMerge_instances (decode : Decoder) (v : String) (cands : List zCVobData)
    (N V : Nat) (I : List Nat)
    (hv : ∀ c ∈ cands, c.visual = v) (hN : cands.length = N)
    (hsub : 1 ≤ (decode (mrmFilename v)).numSubmeshes)
    (hV : (decode (mrmFilename v)).packed.vertices.length = V) (hpos : 0 < V)
    (hI : (decode (mrmFilename v)).packed.subMeshes.flatMap SubMesh.indices = I) :
    ∃ r sm, transformAndMerge decode cands emptyScene = some r ∧
      r.vertices = cands.flatMap (fun c =>
        (decode (mrmFilename v)).packed.vertices.map (transformVertex c.worldMatrix)) ∧
      r.vertices.length = N * V ∧ r.subMeshes = [sm] ∧
      sm.indices = (List.range N).flatMap (fun k => I.map (fun i => (i + k * V) % 2 ^ 32)) ∧
      (N * V < 2 ^ 32 → (∀ i ∈ I, i < V) →
        sm.indices = (List.range N).flatMap (fun k => I.map (fun i => i + k * V))) := by
  have hsub2 : (decode (mrmFilename v)).numSubmeshes ≠ 0 := by omega
  have hV2 : (decode (mrmFilename v)).packed.vertices ≠ [] := by
    intro h
    rw [h] at hV
    simp at hV
    omega
  have hrun := naive_instances decode v hsub2 hV2 cands hv [] ⟨0, []⟩ []
  have hidx : (List.range cands.length).flatMap (fun k =>
      shiftedIndices (([] : List WorldVertex).length + k *
        (decode (mrmFilename v)).packed.vertices.length) (decode (mrmFilename v)).packed) =
      (List.range N).flatMap (fun k => I.map (fun i => (i + k * V) % 2 ^ 32)) := by
    simp [shiftedIndices, hI, hV, hN]
  rw [hidx] at hrun
  have hm : transformAndMerge decode cands emptyScene = some
      ⟨[] ++ cands.flatMap (fun c =>
        (decode (mrmFilename v)).packed.vertices.map (transformVertex c.worldMatrix)),
       [SubMesh.extend ⟨0, []⟩
        ((List.range N).flatMap (fun k => I.map (fun i => (i + k * V) % 2 ^ 32)))]⟩ := by
    unfold transformAndMerge transformAndMergeRun
    rw [mergeLoop_naive decode cands _ (cacheOK_nil decode)]
    exact hrun
  refine ⟨_, _, hm, by simp, ?_, rfl, by simp [SubMesh.extend], ?_⟩
  · simp only [List.nil_append]
    rw [length_flatMap_map, hN, hV]
  · intro hlt hwf
    simp only [SubMesh.extend, List.nil_append]
    apply List.flatMap_congr
    intro k hk
    apply List.map_congr_left
    intro i hi
    have hiV := hwf i hi
    have hkN : k < N := List.mem_range.mp hk
    apply Nat.mod_eq_of_lt
    have h1 : (k + 1) * V ≤ N * V := Nat.mul_le_mul_right V hkN
    have h2 : (k + 1) * V = k * V + V := by ring
    omega

/-- Witness of C2, amended: three instances of the one-vertex asset; `3 * 1 < 2 ^ 32` and the
single index `0` is below `1`, so the indices are `0`, `1`, `2` without truncation. -/
theorem transformAndMerge_instances_witness :
    ∃ r sm, transformAndMerge oneVertexDecoder [aVob, aVob, aVob] emptyScene = some r ∧
      r.vertices = [aVob, aVob, aVob].flatMap (fun c =>
        (oneVertexDecoder (mrmFilename "A.3DS")).packed.vertices.map
          (transformVertex c.worldMatrix)) ∧
      r.vertices.length = 3 * 1 ∧ r.subMeshes = [sm] ∧
      sm.indices = (List.range 3).flatMap (fun k => [0].map (fun i => (i + k * 1) % 2 ^ 32)) ∧
      sm.indices = (List.range 3).flatMap (fun k => [0].map (fun i => i + k * 1)) := by
  obtain ⟨r, sm, hrun, hvs, hlen, hsm, hmod, hplain⟩ :=
    transformAndMerge_instances oneVertexDecoder "A.3DS" [aVob, aVob, aVob] 3 1 [0]
      (by simp [aVob, zCVobData.visual]) rfl (by decide) (by decide) (by decide) (by decide)
  exact ⟨r, sm, hrun, hvs, hlen, hsm, hmod, hplain (by decide) (by decide)⟩

/-- C3 as stated fails: two candidates share the visual `W.3DS`, whose asset decodes to zero
submeshes, and the decoder is constructed for that visual twice. -/
theorem empty_asset_decoded_twice :
    (oneVertexDecoder (mrmFilename wVob.visual)).numSubmeshes = 0 ∧
    (transformAndMergeRun oneVertexDecoder [wVob, wVob] emptyScene).map MergeState.decoded =
      some ["W.3DS", "W.3DS"] := by
  decide

/-- C3, amended: for every candidate list, a run of `transformAndMerge` on a scene with at
least one submesh constructs the decoder exactly once for every visual name among the
candidates whose asset decodes to at least one submesh, and once per candidate for every
visual name whose asset decodes to zero submeshes. -/
theorem decoded_count (decode : Decoder) (vobsWithVisuals : List zCVobData)
    (targetScene : PackedMesh) (hne : targetScene.subMeshes ≠ []) :
    ∃ st, transformAndMergeRun decode vobsWithVisuals targetScene = some st ∧
      ∀ v, st.decoded.count v =
        if (decode (mrmFilename v)).numSubmeshes = 0 then
          (vobsWithVisuals.map zCVobData.visual).count v
        else if v ∈ vobsWithVisuals.map zCVobData.visual then 1 else 0 := by
  obtain ⟨st, hst, _, hcount⟩ := mergeLoop_decoded decode vobsWithVisuals
    { meshes := [], targetScene := targetScene, decoded := [] } hne
  refine ⟨st, hst, ?_⟩
  intro v
  rw [hcount v]
  simp

/-- Witness of C3, amended: two candidates for an existing asset around two for a missing
one. -/
theorem decoded_count_witness :
    ∃ st, transformAndMergeRun oneVertexDecoder [aVob, wVob, wVob, aVob] emptyScene = some st ∧
      ∀ v, st.decoded.count v =
        if (oneVertexDecoder (mrmFilename v)).numSubmeshes = 0 then
          ([aVob, wVob, wVob, aVob].map zCVobData.visual).count v
        else if v ∈ [aVob, wVob, wVob, aVob].map zCVobData.visual then 1 else 0 :=
  decoded_count oneVertexDecoder [aVob, wVob, wVob, aVob] emptyScene (by simp [emptyScene])

/-- C8 as stated fails: the single vertex `(1, 0, 0)` of the asset, merged for a candidate
translated by `(0, 0, 100)`, gets the position `(0.01, 0, 1)`, which is not `(0.01, 0, 1.01)`. -/
theorem vertex_position_not_101 :
    (transformAndMerge oneVertexDecoder [aVob] emptyScene).map
      (fun r => r.vertices.map WorldVertex.Position) = some [⟨1 / 100, 0, 1⟩] ∧
    (transformAndMerge oneVertexDecoder [aVob] emptyScene).map
      (fun r => r.vertices.map WorldVertex.Position) ≠ some [⟨1 / 100, 0, 101 / 100⟩] := by
  have hf : mrmFilename "A.3DS" = "A.MRM" := by decide
  have h : (transformAndMerge oneVertexDecoder [aVob] emptyScene).map
      (fun r => r.vertices.map WorldVertex.Position) = some [⟨1 / 100, 0, 1⟩] := by
    simp [transformAndMerge, transformAndMergeRun, mergeLoop, mergeVob, appendMesh, pushSubMeshes,
      pushIndices, pushIndex, emptyScene, aVob, oneVertexDecoder, hf, zCVobData.visual,
      zCVobData.worldMatrix, transformVertex, mulVec, translation, g_isExportedVerticesLimited]
  refine ⟨h, ?_⟩
  rw [h]
  intro hc
  simp only [Option.some.injEq, List.cons.injEq, float3.mk.injEq, and_true] at hc
  norm_num at hc

/-- C8, amended: for an asset with a single vertex at local position `(1, 0, 0)` and a
candidate whose world transform is the translation by `(0, 0, 100)`, the vertex appended by
`transformAndMerge` has the position `(0.01, 0, 1)`: the world matrix applied to
`(x, y, z, 1)`, then each of `x`, `y`, `z` multiplied by `0.01`; its other attributes are
unchanged. -/
theorem translated_vertex (decode : Decoder) (vob : zCVobData) (attributes : Nat)
    (hsub : (decode (mrmFilename vob.visual)).numSubmeshes ≠ 0)
    (hvs : (decode (mrmFilename vob.visual)).packed.vertices = [⟨⟨1, 0, 0⟩, attributes⟩])
    (hw : vob.worldMatrix = translation 0 0 100) :
    (transformAndMerge decode [vob] emptyScene).map PackedMesh.vertices =
      some [⟨⟨1 / 100, 0, 1⟩, attributes⟩] := by
  have hne : (decode (mrmFilename vob.visual)).packed.vertices ≠ [] := by simp [hvs]
  unfold transformAndMerge transformAndMergeRun
  rw [mergeLoop_naive decode [vob] _ (cacheOK_nil decode)]
  simp only [transformAndMergeNaive, mergeVobNaive, hsub, if_false, emptyScene]
  rw [appendMesh_cons _ _ _ _ _ hne]
  simp only [Option.map_some', hvs, hw, List.nil_append, List.map_cons, List.map_nil,
    transformVertex, mulVec, translation]
  norm_num

/-- Witness of C8, amended: the one-vertex asset `A.MRM`. -/
theorem translated_vertex_witness :
    (transformAndMerge oneVertexDecoder [aVob] emptyScene).map PackedMesh.vertices =
      some [⟨⟨1 / 100, 0, 1⟩, 7⟩] :=
  translated_vertex oneVertexDecoder aVob 7 (by decide) (by decide) rfl

/-- C9: in every state `st` that the loop of `transformAndMerge` reaches from a scene and an
empty cache, a candidate whose asset decodes to zero submeshes, or whose packed mesh has no
vertex, is processed without failure and without leaving the loop, the scene of the new state
is the scene of `st`, and the candidates after it are processed with the same outcome for the
scene as without it. -/
theorem empty_asset_skipped (decode : Decoder) (pre : List zCVobData) (scene : PackedMesh)
    (st : MergeState) (vob : zCVobData)
    (hreach : transformAndMergeRun decode pre scene = some st)
    (hempty : (decode (mrmFilename vob.visual)).numSubmeshes = 0 ∨
      (decode (mrmFilename vob.visual)).packed.vertices = []) :
    ∃ st1, mergeVob decode vob st = some (st1, false) ∧
      st1.targetScene = st.targetScene ∧
      ∀ post, mergeLoop decode (vob :: post) st = mergeLoop decode post st1 ∧
        (mergeLoop decode (vob :: post) st).map MergeState.targetScene =
          (mergeLoop decode post st).map MergeState.targetScene := by
  have hc : CacheOK decode st.meshes :=
    mergeLoop_cacheOK decode pre _ st (cacheOK_nil decode) hreach
  have hnaive : mergeVobNaive decode vob st.targetScene = some (st.targetScene, false) := by
    unfold mergeVobNaive
    by_cases hn : (decode (mrmFilename vob.visual)).numSubmeshes = 0
    · simp [hn]
    · simp only [hn, if_false]
      exact appendMesh_empty _ _ _ (hempty.resolve_left hn)
  have hstep := mergeVob_naive decode vob st hc
  rw [hnaive] at hstep
  cases hm : mergeVob decode vob st with
  | none => simp [hm] at hstep
  | some r =>
    obtain ⟨st1, b⟩ := r
    rw [hm] at hstep
    simp only [Option.map_some', Option.some.injEq, Prod.mk.injEq] at hstep
    obtain ⟨hscene, hb⟩ := hstep
    subst hb
    have hc1 : CacheOK decode st1.meshes := mergeVob_cacheOK decode vob st _ hc hm
    refine ⟨st1, rfl, hscene, ?_⟩
    intro post
    have hloop : mergeLoop decode (vob :: post) st = mergeLoop decode post st1 := by
      rw [mergeLoop, hm]
    refine ⟨hloop, ?_⟩
    rw [hloop, mergeLoop_naive decode post st1 hc1, mergeLoop_naive decode post st hc, hscene]

/-- Witness of C9: after one instance of the one-vertex asset, a candidate whose packed mesh
has indices and no vertex. -/
theorem empty_asset_skipped_witness :
    ∃ st1, mergeVob noVertexDecoder eVob
        ⟨[("A.3DS", (noVertexDecoder "A.MRM").packed)],
          ⟨[⟨⟨1 / 100, 0, 1⟩, 7⟩], [⟨0, [0]⟩]⟩, ["A.3DS"]⟩ = some (st1, false) ∧
      st1.targetScene = ⟨[⟨⟨1 / 100, 0, 1⟩, 7⟩], [⟨0, [0]⟩]⟩ ∧
      ∀ post, mergeLoop noVertexDecoder (eVob :: post)
          ⟨[("A.3DS", (noVertexDecoder "A.MRM").packed)],
            ⟨[⟨⟨1 / 100, 0, 1⟩, 7⟩], [⟨0, [0]⟩]⟩, ["A.3DS"]⟩ =
          mergeLoop noVertexDecoder post st1 ∧
        (mergeLoop noVertexDecoder (eVob :: post)
          ⟨[("A.3DS", (noVertexDecoder "A.MRM").packed)],
            ⟨[⟨⟨1 / 100, 0, 1⟩, 7⟩], [⟨0, [0]⟩]⟩, ["A.3DS"]⟩).map MergeState.targetScene =
        (mergeLoop noVertexDecoder post
          ⟨[("A.3DS", (noVertexDecoder "A.MRM").packed)],
            ⟨[⟨⟨1 / 100, 0, 1⟩, 7⟩], [⟨0, [0]⟩]⟩, ["A.3DS"]⟩).map MergeState.targetScene :=
  empty_asset_skipped noVertexDecoder [aVob] emptyScene
    ⟨[("A.3DS", (noVertexDecoder "A.MRM").packed)],
      ⟨[⟨⟨1 / 100, 0, 1⟩, 7⟩], [⟨0, [0]⟩]⟩, ["A.3DS"]⟩ eVob
    (by
      have hf : mrmFilename "A.3DS" = "A.MRM" := by decide
      simp [transformAndMergeRun, mergeLoop, mergeVob, appendMesh, pushSubMeshes,
        pushIndices, pushIndex, emptyScene, aVob, noVertexDecoder, oneVertexDecoder, hf,
        zCVobData.visual, zCVobData.worldMatrix, transformVertex, mulVec, translation,
        g_isExportedVerticesLimited])
    (Or.inr (by decide))

end ZenToObj
